import Mathlib

/-!
Verification of the xcomfort-python bridge client against its
natural-language specification.

The development shallowly embeds the Python sources:

- `connection.py`: the secure-channel framing (`_pad_string`,
  `SecureBridgeConnection.send`, `send_message`, `__decrypt`, `pump`'s
  acknowledgement step) and `hash_password`.
- `devices.py`: `Light`, `ShadeState`, `Shade`, `Rocker` and their
  `handle_state` methods.
- `room.py`: `RctMode`, `RctState`, `Room.handle_state`,
  `set_target_temperature`, `set_mode`.
- `bridge.py`: the setpoint ranges, `_handle_SET_STATE_INFO`, `_onMessage`.

Python byte strings are `List Nat` with values below 256; Python `dict`
fields that the code reads become `Option` fields; Python exceptions become
explicit error values.  External library primitives (the AES block
permutation and the JSON serializer) are parameters of the theorems, with
their documented contracts as hypotheses; base64 is modelled concretely
because the transport feeds the 0x04 frame delimiter through `b64decode`,
relying on its discard-foreign-characters behaviour.
-/

namespace XComfort

/-- A Python `bytes` value: every element is an octet. -/
def isBytes (l : List Nat) : Prop := ∀ x ∈ l, x < 256

/-- Python `data.rstrip(b"\x00")`: drop trailing zero bytes. -/
def rstrip0 (l : List Nat) : List Nat :=
  (l.reverse.dropWhile (· == 0)).reverse

/-- `_pad_string` from connection.py: right-pad with zero bytes to the next
multiple of `AES.block_size` (16); an aligned input gains a full extra
block because `pad_size = 16 - length % 16` is then 16. -/
def padString (value : List Nat) : List Nat :=
  value ++ List.replicate (16 - value.length % 16) 0

theorem padString_length_dvd (v : List Nat) : 16 ∣ (padString v).length := by
  have h : (padString v).length = v.length + (16 - v.length % 16) := by
    simp [padString]
  have h2 : v.length % 16 < 16 := Nat.mod_lt _ (by omega)
  rw [h]
  omega

theorem rstrip0_append_replicate (s : List Nat) (k : Nat) :
    rstrip0 (s ++ List.replicate k 0) = rstrip0 s := by
  unfold rstrip0
  rw [List.reverse_append, List.reverse_replicate]
  congr 1
  induction k with
  | zero => simp
  | succ n ih => simp [List.replicate_succ, ih]

theorem rstrip0_eq_self (s : List Nat) (h : s.getLast? ≠ some 0) :
    rstrip0 s = s := by
  unfold rstrip0
  cases hs : s.reverse with
  | nil =>
    have : s = [] := by simpa using congrArg List.reverse hs
    simp [this]
  | cons a t =>
    have ha : s.getLast? = some a := by
      rw [← List.head?_reverse, hs]; rfl
    have hne : a ≠ 0 := by
      intro h0; exact h (h0 ▸ ha)
    rw [List.dropWhile_cons]
    have hbe : (a == 0) = false := by simpa using hne
    rw [hbe]
    simpa using (congrArg List.reverse hs).symm

/-- Pointwise XOR of two byte strings (the CBC chaining step). -/
def zipXor (a b : List Nat) : List Nat := List.zipWith Nat.xor a b

theorem zipXor_length (a b : List Nat) :
    (zipXor a b).length = min a.length b.length := by
  simp [zipXor]

theorem zipXor_self_cancel (a b : List Nat) (h : a.length = b.length) :
    zipXor a (zipXor a b) = b := by
  induction a generalizing b with
  | nil =>
    cases b with
    | nil => rfl
    | cons x xs => simp at h
  | cons x xs ih =>
    cases b with
    | nil => simp at h
    | cons y ys =>
      simp only [zipXor, List.zipWith_cons_cons, List.cons.injEq]
      refine ⟨Nat.xor_cancel_left x y, ?_⟩
      exact ih ys (by simpa using h)

theorem zipXor_isBytes (a b : List Nat) (ha : isBytes a) (hb : isBytes b) :
    isBytes (zipXor a b) := by
  induction a generalizing b with
  | nil => intro x hx; simp [zipXor] at hx
  | cons c cs ih =>
    cases b with
    | nil => intro x hx; simp [zipXor] at hx
    | cons d ds =>
      intro x hx
      simp only [zipXor, List.zipWith_cons_cons, List.mem_cons] at hx
      rcases hx with h1 | h2
      · subst h1
        have hc : c < 2 ^ 8 := by simpa using ha c (by simp)
        have hd : d < 2 ^ 8 := by simpa using hb d (by simp)
        simpa using Nat.xor_lt_two_pow hc hd
      · exact ih ds (fun y hy => ha y (by simp [hy]))
          (fun y hy => hb y (by simp [hy])) x h2

/-- Split a byte string into 16-byte cipher blocks (how the AES-CBC mode of
`Crypto.Cipher.AES` consumes its input). -/
def chunks16 (l : List Nat) : List (List Nat) :=
  if h : l = [] then [] else
    l.take 16 :: chunks16 (l.drop 16)
termination_by l.length
decreasing_by
  have : l.length ≠ 0 := fun h0 => h (List.eq_nil_of_length_eq_zero h0)
  simp
  omega

theorem chunks16_nil : chunks16 [] = [] := by
  rw [chunks16]
  simp

theorem chunks16_append (b rest : List Nat) (hb : b.length = 16) :
    chunks16 (b ++ rest) = b :: chunks16 rest := by
  rw [chunks16]
  have hbne : b ≠ [] := by
    intro h0; rw [h0] at hb; simp at hb
  have hne : b ++ rest ≠ [] := by
    intro h0
    exact hbne (List.append_eq_nil.mp h0).1
  rw [dif_neg hne]
  congr 1
  · rw [← hb, List.take_left]
  · congr 1
    rw [← hb, List.drop_left]

theorem flatten_chunks16 (l : List Nat) : (chunks16 l).flatten = l := by
  suffices H : ∀ n l, l.length ≤ n → (chunks16 l).flatten = l from
    H l.length l le_rfl
  intro n
  induction n with
  | zero =>
    intro l hl
    have : l = [] := List.eq_nil_of_length_eq_zero (by omega)
    simp [this, chunks16_nil]
  | succ m ih =>
    intro l hl
    rw [chunks16]
    by_cases h : l = []
    · simp [h]
    · rw [dif_neg h]
      have hlen : l.length ≠ 0 := fun h0 => h (List.eq_nil_of_length_eq_zero h0)
      simp only [List.flatten_cons]
      rw [ih (l.drop 16) (by simp; omega)]
      exact List.take_append_drop 16 l

theorem chunks16_all_bytes (l : List Nat) (h : isBytes l) :
    ∀ b ∈ chunks16 l, isBytes b := by
  suffices H : ∀ n l, l.length ≤ n → isBytes l → ∀ b ∈ chunks16 l, isBytes b from
    H l.length l le_rfl h
  intro n
  induction n with
  | zero =>
    intro l hl _
    have : l = [] := List.eq_nil_of_length_eq_zero (by omega)
    simp [this, chunks16_nil]
  | succ m ih =>
    intro l hl hbytes
    rw [chunks16]
    by_cases hnil : l = []
    · simp [hnil]
    · rw [dif_neg hnil]
      intro b hb
      have hlen : l.length ≠ 0 := fun h0 => hnil (List.eq_nil_of_length_eq_zero h0)
      rcases List.mem_cons.mp hb with h1 | h2
      · subst h1
        intro x hx
        exact hbytes x (List.mem_of_mem_take hx)
      · exact ih (l.drop 16) (by simp; omega)
          (fun x hx => hbytes x (List.mem_of_mem_drop hx)) b h2

theorem chunks16_length_all (l : List Nat) (h : 16 ∣ l.length) :
    ∀ b ∈ chunks16 l, b.length = 16 := by
  suffices H : ∀ n l, l.length ≤ n → 16 ∣ l.length → ∀ b ∈ chunks16 l, b.length = 16 from
    H l.length l le_rfl h
  intro n
  induction n with
  | zero =>
    intro l hl _
    have : l = [] := List.eq_nil_of_length_eq_zero (by omega)
    simp [this, chunks16_nil]
  | succ m ih =>
    intro l hl hdvd
    rw [chunks16]
    by_cases hnil : l = []
    · simp [hnil]
    · rw [dif_neg hnil]
      intro b hb
      have hlen : l.length ≠ 0 := fun h0 => hnil (List.eq_nil_of_length_eq_zero h0)
      have h16 : 16 ≤ l.length := by
        rcases hdvd with ⟨c, hc⟩
        rcases Nat.eq_zero_or_pos c with h0 | h0 <;> omega
      rcases List.mem_cons.mp hb with h1 | h2
      · subst h1
        simp
        omega
      · refine ih (l.drop 16) (by simp; omega) ?_ b h2
        rcases hdvd with ⟨c, hc⟩
        exact ⟨c - 1, by simp; omega⟩

/-- CBC encryption over a block permutation `E` (the per-block action of
`AES.new(key, AES.MODE_CBC, iv).encrypt`): each plaintext block is XORed
with the previous ciphertext block (initially the IV) before `E`. -/
def cbcEncryptBlocks (E : List Nat → List Nat) (prev : List Nat) :
    List (List Nat) → List (List Nat)
  | [] => []
  | b :: bs =>
    let c := E (zipXor prev b)
    c :: cbcEncryptBlocks E c bs

/-- CBC decryption over the inverse block permutation `D`. -/
def cbcDecryptBlocks (D : List Nat → List Nat) (prev : List Nat) :
    List (List Nat) → List (List Nat)
  | [] => []
  | c :: cs => zipXor prev (D c) :: cbcDecryptBlocks D c cs

def cbcEncrypt (E : List Nat → List Nat) (iv pt : List Nat) : List Nat :=
  (cbcEncryptBlocks E iv (chunks16 pt)).flatten

def cbcDecrypt (D : List Nat → List Nat) (iv ct : List Nat) : List Nat :=
  (cbcDecryptBlocks D iv (chunks16 ct)).flatten

theorem cbcDecryptBlocks_cbcEncryptBlocks
    (E D : List Nat → List Nat)
    (hED : ∀ b, b.length = 16 → D (E b) = b)
    (hElen : ∀ b, b.length = 16 → (E b).length = 16)
    (iv : List Nat) (hiv : iv.length = 16)
    (blocks : List (List Nat)) (hb : ∀ b ∈ blocks, b.length = 16) :
    cbcDecryptBlocks D iv (cbcEncryptBlocks E iv blocks) = blocks := by
  induction blocks generalizing iv with
  | nil => rfl
  | cons b bs ih =>
    have hb16 : b.length = 16 := hb b (by simp)
    have hx16 : (zipXor iv b).length = 16 := by
      rw [zipXor_length, hiv, hb16]; simp
    simp only [cbcEncryptBlocks, cbcDecryptBlocks, List.cons.injEq]
    constructor
    · rw [hED _ hx16]
      exact zipXor_self_cancel iv b (by omega)
    · exact ih (E (zipXor iv b)) (hElen _ hx16) (fun x hx => hb x (by simp [hx]))

theorem cbcEncryptBlocks_lengths
    (E : List Nat → List Nat)
    (hElen : ∀ b, b.length = 16 → (E b).length = 16)
    (iv : List Nat) (hiv : iv.length = 16)
    (blocks : List (List Nat)) (hb : ∀ b ∈ blocks, b.length = 16) :
    ∀ c ∈ cbcEncryptBlocks E iv blocks, c.length = 16 := by
  induction blocks generalizing iv with
  | nil => simp [cbcEncryptBlocks]
  | cons b bs ih =>
    have hb16 : b.length = 16 := hb b (by simp)
    have hx16 : (zipXor iv b).length = 16 := by
      rw [zipXor_length, hiv, hb16]; simp
    intro c hc
    simp only [cbcEncryptBlocks, List.mem_cons] at hc
    rcases hc with h1 | h2
    · subst h1; exact hElen _ hx16
    · exact ih (E (zipXor iv b)) (hElen _ hx16)
        (fun x hx => hb x (by simp [hx])) c h2

theorem cbcDecrypt_cbcEncrypt
    (E D : List Nat → List Nat)
    (hED : ∀ b, b.length = 16 → D (E b) = b)
    (hElen : ∀ b, b.length = 16 → (E b).length = 16)
    (iv : List Nat) (hiv : iv.length = 16)
    (pt : List Nat) (hpt : 16 ∣ pt.length) :
    cbcDecrypt D iv (cbcEncrypt E iv pt) = pt := by
  unfold cbcEncrypt cbcDecrypt
  have hblocks : ∀ b ∈ chunks16 pt, b.length = 16 := chunks16_length_all pt hpt
  have hct : ∀ c ∈ cbcEncryptBlocks E iv (chunks16 pt), c.length = 16 :=
    cbcEncryptBlocks_lengths E hElen iv hiv _ hblocks
  have hchunks : chunks16 (cbcEncryptBlocks E iv (chunks16 pt)).flatten =
      cbcEncryptBlocks E iv (chunks16 pt) := by
    generalize hgen : cbcEncryptBlocks E iv (chunks16 pt) = cs at hct
    clear hgen
    induction cs with
    | nil => simpa using chunks16_nil
    | cons c cs ihc =>
      simp only [List.flatten_cons]
      rw [chunks16_append c _ (hct c (by simp))]
      rw [ihc (fun x hx => hct x (by simp [hx]))]
  rw [hchunks,
    cbcDecryptBlocks_cbcEncryptBlocks E D hED hElen iv hiv _ hblocks,
    flatten_chunks16]

theorem padString_isBytes (v : List Nat) (h : isBytes v) :
    isBytes (padString v) := by
  intro x hx
  rcases List.mem_append.mp hx with h1 | h2
  · exact h x h1
  · have := List.eq_of_mem_replicate h2
    omega

theorem cbcEncrypt_isBytes
    (E : List Nat → List Nat)
    (hElen : ∀ b, b.length = 16 → (E b).length = 16)
    (hEbytes : ∀ b, b.length = 16 → isBytes b → isBytes (E b))
    (iv : List Nat) (hiv : iv.length = 16) (hivb : isBytes iv)
    (pt : List Nat) (hpt : 16 ∣ pt.length) (hptb : isBytes pt) :
    isBytes (cbcEncrypt E iv pt) := by
  unfold cbcEncrypt
  have hblocks : ∀ b ∈ chunks16 pt, b.length = 16 := chunks16_length_all pt hpt
  have hbb : ∀ b ∈ chunks16 pt, isBytes b := chunks16_all_bytes pt hptb
  have : ∀ c ∈ cbcEncryptBlocks E iv (chunks16 pt), isBytes c := by
    generalize chunks16 pt = bs at hblocks hbb
    induction bs generalizing iv with
    | nil => simp [cbcEncryptBlocks]
    | cons b bs ihb =>
      have hb16 : b.length = 16 := hblocks b (by simp)
      have hx16 : (zipXor iv b).length = 16 := by
        rw [zipXor_length, hiv, hb16]; simp
      have hxb : isBytes (zipXor iv b) :=
        zipXor_isBytes iv b hivb (hbb b (by simp))
      intro c hc
      simp only [cbcEncryptBlocks, List.mem_cons] at hc
      rcases hc with h1 | h2
      · subst h1; exact hEbytes _ hx16 hxb
      · exact ihb (E (zipXor iv b)) (hElen _ hx16) (hEbytes _ hx16 hxb)
          (fun x hx => hblocks x (by simp [hx]))
          (fun x hx => hbb x (by simp [hx])) c h2
  intro x hx
  rcases List.mem_flatten.mp hx with ⟨c, hc, hxc⟩
  exact this c hc x hxc

/-- The base64 alphabet of `base64.b64encode`: sextet to ASCII code. -/
def sextetToChar (s : Nat) : Nat :=
  if s < 26 then 65 + s
  else if s < 52 then 71 + s
  else if s < 62 then s - 4
  else if s = 62 then 43
  else 47

/-- Inverse of the base64 alphabet; `none` for characters outside it. -/
def charToSextet (c : Nat) : Option Nat :=
  if 65 ≤ c ∧ c ≤ 90 then some (c - 65)
  else if 97 ≤ c ∧ c ≤ 122 then some (c - 71)
  else if 48 ≤ c ∧ c ≤ 57 then some (c + 4)
  else if c = 43 then some 62
  else if c = 47 then some 63
  else none

def isB64Char (c : Nat) : Bool := (charToSextet c).isSome

/-- `base64.b64encode` on a byte string: three bytes become four alphabet
characters; a trailing group of one or two bytes is completed with `=`
padding (ASCII 61). -/
def b64encode : List Nat → List Nat
  | [] => []
  | [b0] => [sextetToChar (b0 / 4), sextetToChar (b0 % 4 * 16), 61, 61]
  | [b0, b1] =>
    [sextetToChar (b0 / 4), sextetToChar (b0 % 4 * 16 + b1 / 16),
     sextetToChar (b1 % 16 * 4), 61]
  | b0 :: b1 :: b2 :: rest =>
    sextetToChar (b0 / 4) :: sextetToChar (b0 % 4 * 16 + b1 / 16) ::
    sextetToChar (b1 % 16 * 4 + b2 / 64) :: sextetToChar (b2 % 64) ::
    b64encode rest

/-- Decode a stream of base64 characters four at a time; `=` padding is
accepted only at the very end, mirroring the padding validation of
`binascii.a2b_base64`. -/
def b64decodeQuads : List Nat → Option (List Nat)
  | [] => some []
  | c0 :: c1 :: c2 :: c3 :: rest =>
    match charToSextet c0, charToSextet c1 with
    | some s0, some s1 =>
      if c3 = 61 then
        if c2 = 61 then
          if rest = [] then some [s0 * 4 + s1 / 16] else none
        else
          match charToSextet c2 with
          | some s2 =>
            if rest = [] then some [s0 * 4 + s1 / 16, s1 % 16 * 16 + s2 / 4]
            else none
          | none => none
      else
        match charToSextet c2, charToSextet c3 with
        | some s2, some s3 =>
          match b64decodeQuads rest with
          | some bs =>
            some ((s0 * 4 + s1 / 16) :: (s1 % 16 * 16 + s2 / 4) ::
                  (s2 % 4 * 64 + s3) :: bs)
          | none => none
        | _, _ => none
    | _, _ => none
  | _ => none

/-- `base64.b64decode` (default non-strict mode): characters outside the
alphabet and the padding character are discarded before decoding, which is
what lets the 0x04 frame delimiter pass through unharmed. -/
def b64decode (data : List Nat) : Option (List Nat) :=
  b64decodeQuads (data.filter (fun c => isB64Char c || c == 61))

theorem sextetToChar_ne_61 (s : Nat) : sextetToChar s ≠ 61 := by
  unfold sextetToChar
  split
  · omega
  · split
    · omega
    · split
      · omega
      · split <;> omega

theorem isB64Char_sextetToChar (s : Nat) : isB64Char (sextetToChar s) = true := by
  unfold isB64Char charToSextet sextetToChar
  repeat' split
  all_goals first | rfl | omega

theorem charToSextet_sextetToChar (s : Nat) (h : s < 64) :
    charToSextet (sextetToChar s) = some s := by
  unfold sextetToChar charToSextet
  repeat' split
  all_goals (congr 1; omega)

theorem b64encode_chars_kept (bs : List Nat) :
    ∀ c ∈ b64encode bs, (isB64Char c || c == 61) = true := by
  induction bs using b64encode.induct with
  | case1 => simp [b64encode]
  | case2 b0 =>
    intro c hc
    simp only [b64encode, List.mem_cons] at hc
    rcases hc with h | h | h | h | h
    all_goals first
      | (subst h; simp [isB64Char_sextetToChar])
      | (subst h; simp)
      | simp at h
  | case3 b0 b1 =>
    intro c hc
    simp only [b64encode, List.mem_cons] at hc
    rcases hc with h | h | h | h | h
    all_goals first
      | (subst h; simp [isB64Char_sextetToChar])
      | (subst h; simp)
      | simp at h
  | case4 b0 b1 b2 rest ih =>
    intro c hc
    simp only [b64encode, List.mem_cons] at hc
    rcases hc with h | h | h | h | h
    · subst h; simp [isB64Char_sextetToChar]
    · subst h; simp [isB64Char_sextetToChar]
    · subst h; simp [isB64Char_sextetToChar]
    · subst h; simp [isB64Char_sextetToChar]
    · exact ih c h

theorem b64decodeQuads_b64encode (bs : List Nat) (h : isBytes bs) :
    b64decodeQuads (b64encode bs) = some bs := by
  induction bs using b64encode.induct with
  | case1 => rfl
  | case2 b0 =>
    have h0 : b0 < 256 := h b0 (by simp)
    have e0 : charToSextet (sextetToChar (b0 / 4)) = some (b0 / 4) :=
      charToSextet_sextetToChar _ (by omega)
    have e1 : charToSextet (sextetToChar (b0 % 4 * 16)) = some (b0 % 4 * 16) :=
      charToSextet_sextetToChar _ (by omega)
    simp only [b64encode, b64decodeQuads, e0, e1, if_pos rfl]
    simp
    omega
  | case3 b0 b1 =>
    have h0 : b0 < 256 := h b0 (by simp)
    have h1 : b1 < 256 := h b1 (by simp)
    have e0 : charToSextet (sextetToChar (b0 / 4)) = some (b0 / 4) :=
      charToSextet_sextetToChar _ (by omega)
    have e1 : charToSextet (sextetToChar (b0 % 4 * 16 + b1 / 16)) =
        some (b0 % 4 * 16 + b1 / 16) :=
      charToSextet_sextetToChar _ (by omega)
    have e2 : charToSextet (sextetToChar (b1 % 16 * 4)) = some (b1 % 16 * 4) :=
      charToSextet_sextetToChar _ (by omega)
    simp only [b64encode, b64decodeQuads, e0, e1, e2, if_pos rfl,
      if_neg (sextetToChar_ne_61 (b1 % 16 * 4))]
    simp
    omega
  | case4 b0 b1 b2 rest ih =>
    have h0 : b0 < 256 := h b0 (by simp)
    have h1 : b1 < 256 := h b1 (by simp)
    have h2 : b2 < 256 := h b2 (by simp)
    have hrest : isBytes rest := fun x hx => h x (by simp [hx])
    have e0 : charToSextet (sextetToChar (b0 / 4)) = some (b0 / 4) :=
      charToSextet_sextetToChar _ (by omega)
    have e1 : charToSextet (sextetToChar (b0 % 4 * 16 + b1 / 16)) =
        some (b0 % 4 * 16 + b1 / 16) :=
      charToSextet_sextetToChar _ (by omega)
    have e2 : charToSextet (sextetToChar (b1 % 16 * 4 + b2 / 64)) =
        some (b1 % 16 * 4 + b2 / 64) :=
      charToSextet_sextetToChar _ (by omega)
    have e3 : charToSextet (sextetToChar (b2 % 64)) = some (b2 % 64) :=
      charToSextet_sextetToChar _ (by omega)
    simp only [b64encode, b64decodeQuads, e0, e1, e2, e3,
      if_neg (sextetToChar_ne_61 (b2 % 64)), ih hrest]
    simp
    omega

theorem b64decode_b64encode_append (bs junk : List Nat) (h : isBytes bs)
    (hjunk : ∀ c ∈ junk, (isB64Char c || c == 61) = false) :
    b64decode (b64encode bs ++ junk) = some bs := by
  unfold b64decode
  rw [List.filter_append]
  rw [List.filter_eq_self.mpr (b64encode_chars_kept bs)]
  have : junk.filter (fun c => isB64Char c || c == 61) = [] :=
    List.filter_eq_nil_iff.mpr (by
      intro c hc
      simp [hjunk c hc])
  rw [this, List.append_nil]
  exact b64decodeQuads_b64encode bs h

/-- A post-handshake wire record: a JSON object with the keys the client
reads or writes (`type_int`, `mc`, `ref`, `payload`).  A key the Python
dict does not carry is `none`.  The payload type is a parameter, standing
for any JSON-serializable value. -/
structure Wire (α : Type) where
  type_int : Int
  mc : Option Int := none
  ref : Option Int := none
  payload : Option α := none
deriving DecidableEq, Repr

/-- The mutable state of `SecureBridgeConnection.__init__`: AES key and IV
(fixed for the session lifetime), the peer device id, and the outbound
message counter `self.mc = 0`. -/
structure SecureBridgeConnection where
  key : List Nat
  iv : List Nat
  device_id : Int
  mc : Nat := 0
deriving DecidableEq, Repr

/-- `SecureBridgeConnection.send`: JSON-serialize (`dumps`), zero-pad,
AES-CBC encrypt (block permutation `E`, the connection's IV), base64-encode
and append the single 0x04 delimiter byte.  `self.mc` is not touched. -/
def connSend (E : List Nat → List Nat) (dumps : Wire α → List Nat)
    (c : SecureBridgeConnection) (data : Wire α) :
    SecureBridgeConnection × List Nat :=
  (c, b64encode (cbcEncrypt E c.iv (padString (dumps data))) ++ [4])

/-- `SecureBridgeConnection.send_message`: increment `self.mc`, then `send`
the record `{type_int, mc: self.mc, payload}`. -/
def connSendMessage (E : List Nat → List Nat) (dumps : Wire α → List Nat)
    (c : SecureBridgeConnection) (message_type : Int) (payload : α) :
    SecureBridgeConnection × List Nat :=
  let c1 : SecureBridgeConnection := { c with mc := c.mc + 1 }
  connSend E dumps c1 ⟨message_type, some (Int.ofNat c1.mc), none, some payload⟩

/-- The wire frame `send_message` produces, before byte-level encoding
(what `json.dumps` is applied to). -/
def connSendMessageFrame (c : SecureBridgeConnection) (message_type : Int)
    (payload : α) : Wire α :=
  ⟨message_type, some (Int.ofNat (c.mc + 1)), none, some payload⟩

/-- Iterate `send_message` over a list of (type, payload) requests,
collecting the pre-encoding frames. -/
def connSendAll (E : List Nat → List Nat) (dumps : Wire α → List Nat)
    (c : SecureBridgeConnection) :
    List (Int × α) → SecureBridgeConnection × List (Wire α)
  | [] => (c, [])
  | (t, p) :: rest =>
    let r := connSendAll E dumps (connSendMessage E dumps c t p).1 rest
    (r.1, connSendMessageFrame c t p :: r.2)

/-- `SecureBridgeConnection.__decrypt`: base64-decode (raising on bad
input), AES-CBC decrypt with the session IV, strip trailing zero bytes;
an empty result is the empty object (`none` here), otherwise JSON-parse
(`loads`, raising on bad input). -/
def connDecrypt (D : List Nat → List Nat) (loads : List Nat → Option (Wire α))
    (c : SecureBridgeConnection) (data : List Nat) :
    Except String (Option (Wire α)) :=
  match b64decode data with
  | none => .error "binascii.Error"
  | some ct =>
    let pt := rstrip0 (cbcDecrypt D c.iv ct)
    if pt = [] then .ok none
    else match loads pt with
      | some w => .ok (some w)
      | none => .error "json.JSONDecodeError"

/-- One inbound record through `SecureBridgeConnection.pump`: if the
decoded record has an `mc` key, acknowledge it with the raw-`send` frame
`{type_int: 1, ref: mc}`; if it has a payload, publish it to subscribers.
Returns the connection state, the acknowledgement frames handed to `send`,
and the published records. -/
def connPumpRecord (E : List Nat → List Nat) (dumps : Wire α → List Nat)
    (c : SecureBridgeConnection) (result : Wire α) :
    SecureBridgeConnection × List (Wire α × List Nat) × List (Wire α) :=
  let (c1, acks) :=
    match result.mc with
    | some m =>
      let ack : Wire α := ⟨1, none, some m, none⟩
      let (c2, bytes) := connSend E dumps c ack
      (c2, [(ack, bytes)])
    | none => (c, [])
  let published := if result.payload.isSome then [result] else []
  (c1, acks, published)

/-- C1: for every payload and integer type code, decoding the wire frame
produced by encoding (JSON-serialize, zero-pad to the 16-byte block size,
AES-CBC encrypt, base64-encode, append one 0x04 delimiter byte) yields
back a record whose payload equals the original payload exactly.  The AES
block permutation `E`/`D` and the JSON serializer `dumps`/`loads` are the
external library primitives, constrained by their contracts: `D` inverts
`E` on 16-byte blocks, `E` maps 16-byte blocks to 16-byte blocks of
octets, the IV is 16 bytes, `loads` inverts `dumps` on the record being
sent (the record is JSON-serializable), and — the claim's proviso — the
serialized JSON text is nonempty and does not end in a zero byte. -/
theorem decrypt_encode_roundtrip {α : Type}
    (E D : List Nat → List Nat) (dumps : Wire α → List Nat)
    (loads : List Nat → Option (Wire α))
    (c : SecureBridgeConnection) (t : Int) (p : α)
    (hED : ∀ b, b.length = 16 → D (E b) = b)
    (hElen : ∀ b, b.length = 16 → (E b).length = 16)
    (hEbytes : ∀ b, b.length = 16 → isBytes b → isBytes (E b))
    (hiv : c.iv.length = 16) (hivb : isBytes c.iv)
    (hjson : loads (dumps (connSendMessageFrame c t p)) =
      some (connSendMessageFrame c t p))
    (hbytes : isBytes (dumps (connSendMessageFrame c t p)))
    (hne : dumps (connSendMessageFrame c t p) ≠ [])
    (hnz : (dumps (connSendMessageFrame c t p)).getLast? ≠ some 0) :
    connDecrypt D loads c (connSendMessage E dumps c t p).2 =
      .ok (some (connSendMessageFrame c t p)) ∧
    (connSendMessageFrame c t p).payload = some p ∧
    (connSendMessage E dumps c t p).1.mc = c.mc + 1 := by
  refine ⟨?_, rfl, rfl⟩
  have hframe : (connSendMessage E dumps c t p).2 =
      b64encode (cbcEncrypt E c.iv (padString (dumps (connSendMessageFrame c t p)))) ++ [4] := by
    rfl
  rw [hframe]
  set s := dumps (connSendMessageFrame c t p) with hs
  have hdvd := padString_length_dvd s
  have hpb : isBytes (padString s) := padString_isBytes s hbytes
  have hct : isBytes (cbcEncrypt E c.iv (padString s)) :=
    cbcEncrypt_isBytes E hElen hEbytes c.iv hiv hivb _ hdvd hpb
  have h1 : b64decode (b64encode (cbcEncrypt E c.iv (padString s)) ++ [4]) =
      some (cbcEncrypt E c.iv (padString s)) := by
    apply b64decode_b64encode_append _ _ hct
    intro x hx
    simp only [List.mem_singleton] at hx
    subst hx
    rfl
  have h2 : cbcDecrypt D c.iv (cbcEncrypt E c.iv (padString s)) = padString s :=
    cbcDecrypt_cbcEncrypt E D hED hElen c.iv hiv _ hdvd
  have h3 : rstrip0 (padString s) = s := by
    unfold padString
    rw [rstrip0_append_replicate, rstrip0_eq_self s hnz]
  unfold connDecrypt
  rw [h1]
  simp only [h2, h3]
  rw [if_neg hne]
  rw [hjson]

/-- C1 witness: a concrete run of the round trip with the identity block
permutation, the all-zero key and IV, and a one-byte serializer for the
single record being sent. -/
theorem decrypt_encode_roundtrip_witness :
    connDecrypt (fun b => b)
      (fun bs => if bs = [7] then some (⟨2, some 1, none, some true⟩ : Wire Bool) else none)
      ⟨List.replicate 32 0, List.replicate 16 0, 0, 0⟩
      (connSendMessage (fun b => b) (fun _ => [7])
        ⟨List.replicate 32 0, List.replicate 16 0, 0, 0⟩ 2 true).2 =
      .ok (some (⟨2, some 1, none, some true⟩ : Wire Bool)) := by
  have h := decrypt_encode_roundtrip (α := Bool) (fun b => b) (fun b => b)
    (fun _ => [7])
    (fun bs => if bs = [7] then some (⟨2, some 1, none, some true⟩ : Wire Bool) else none)
    ⟨List.replicate 32 0, List.replicate 16 0, 0, 0⟩ 2 true
    (fun _ _ => rfl) (fun _ h => h) (fun _ _ hb => hb)
    (by simp) (by intro x hx; simp at hx; omega)
    (by rfl) (by intro x hx; simp at hx; omega) (by simp) (by simp [rstrip0])
  exact h.1

theorem connSendAll_mc {α : Type} (E : List Nat → List Nat)
    (dumps : Wire α → List Nat) (msgs : List (Int × α))
    (c : SecureBridgeConnection) :
    (connSendAll E dumps c msgs).2.map Wire.mc =
      (List.range msgs.length).map (fun i => some (Int.ofNat (c.mc + i + 1))) ∧
    (connSendAll E dumps c msgs).1.mc = c.mc + msgs.length := by
  induction msgs generalizing c with
  | nil => simp [connSendAll]
  | cons m rest ih =>
    obtain ⟨t, p⟩ := m
    have ih1 := ih { c with mc := c.mc + 1 }
    constructor
    · have hstep : (connSendAll E dumps c ((t, p) :: rest)).2 =
          connSendMessageFrame c t p ::
            (connSendAll E dumps { c with mc := c.mc + 1 } rest).2 := rfl
      rw [hstep, List.map_cons, ih1.1]
      simp only [List.length_cons, List.range_succ_eq_map, List.map_cons,
        List.map_map]
      refine congrArg₂ List.cons ?_ ?_
      · simp [connSendMessageFrame]
      · apply List.map_congr_left
        intro i _
        simp only [Function.comp_apply, Option.some.injEq]
        congr 1
        omega
    · have hstep : (connSendAll E dumps c ((t, p) :: rest)).1 =
          (connSendAll E dumps { c with mc := c.mc + 1 } rest).1 := rfl
      rw [hstep, ih1.2]
      simp
      omega

/-- The four counted `send_message` calls that `setup_secure_connection`
itself performs after constructing the channel: login request (type 30),
token submit (33), token renew (37), token resubmit (33), from
connection.py.  Their payloads do not affect the counter. -/
def handshakeRequests : List (Int × Unit) :=
  [(30, ()), (33, ()), (37, ()), (33, ())]

/-- C7 counterexample: the handshake itself performs four counted
`send_message` calls, so the first `send_message` after the handshake
stamps `mc = 5`, not `mc = 1` as the claim states. -/
theorem counter_after_handshake_counterexample :
    (connSendMessageFrame
      (connSendAll (fun b => b) (fun _ => ([] : List Nat))
        (⟨[], [], 0, 0⟩ : SecureBridgeConnection) handshakeRequests).1
      240 ()).mc = some 5 ∧
    (connSendMessageFrame
      (connSendAll (fun b => b) (fun _ => ([] : List Nat))
        (⟨[], [], 0, 0⟩ : SecureBridgeConnection) handshakeRequests).1
      240 ()).mc ≠ some 1 := by
  constructor
  · rfl
  · decide

/-- C7 (amended): the outbound counter starts at 0 at construction and each
`send_message` call increments it by exactly 1 before stamping it into the
frame, so the n-th `send_message` call since construction carries
`mc = n` (counters are strictly increasing starting at 1); the handshake
itself performs four counted `send_message` calls, so the n-th
`send_message` after the handshake carries `mc = n + 4`. -/
theorem send_message_counter_amended {α : Type} (E : List Nat → List Nat)
    (dumps : Wire α → List Nat) (key iv : List Nat) (did : Int) :
    (∀ msgs : List (Int × α),
      (connSendAll E dumps ⟨key, iv, did, 0⟩ msgs).2.map Wire.mc =
        (List.range msgs.length).map (fun i => some (Int.ofNat (i + 1))) ∧
      (connSendAll E dumps ⟨key, iv, did, 0⟩ msgs).1.mc = msgs.length) ∧
    (∀ (m1 m2 m3 m4 : Int × α) (rest : List (Int × α)),
      ((connSendAll E dumps ⟨key, iv, did, 0⟩
          (m1 :: m2 :: m3 :: m4 :: rest)).2.drop 4).map Wire.mc =
        (List.range rest.length).map (fun i => some (Int.ofNat (i + 5)))) := by
  constructor
  · intro msgs
    have h := connSendAll_mc E dumps msgs ⟨key, iv, did, 0⟩
    constructor
    · rw [h.1]
      apply List.map_congr_left
      intro i _
      simp
    · simpa using h.2
  · intro m1 m2 m3 m4 rest
    obtain ⟨t1, p1⟩ := m1
    obtain ⟨t2, p2⟩ := m2
    obtain ⟨t3, p3⟩ := m3
    obtain ⟨t4, p4⟩ := m4
    have hdrop : ((connSendAll E dumps ⟨key, iv, did, 0⟩
        ((t1, p1) :: (t2, p2) :: (t3, p3) :: (t4, p4) :: rest)).2.drop 4) =
        (connSendAll E dumps ⟨key, iv, did, 4⟩ rest).2 := rfl
    rw [hdrop, (connSendAll_mc E dumps rest ⟨key, iv, did, 4⟩).1]
    apply List.map_congr_left
    intro i _
    simp only [Option.some.injEq]
    congr 1
    omega

/-- C9: when the pump receives a record carrying an `mc` key, it
acknowledges it with the frame `{type_int: 1, ref: mc}` through the raw
`send` path: the connection's outbound counter is unchanged, the
acknowledgement frame itself carries no `mc` key, and only `send_message`
increments the counter. -/
theorem pump_ack_raw_send {α : Type} (E : List Nat → List Nat)
    (dumps : Wire α → List Nat) (c : SecureBridgeConnection)
    (r : Wire α) (m : Int) (h : r.mc = some m) :
    (connPumpRecord E dumps c r).1 = c ∧
    (connPumpRecord E dumps c r).2.1 =
      [(⟨1, none, some m, none⟩,
        (connSend E dumps c ⟨1, none, some m, none⟩).2)] ∧
    (⟨1, none, some m, none⟩ : Wire α).mc = none ∧
    (∀ t p, (connSendMessage E dumps c t p).1.mc = c.mc + 1) := by
  refine ⟨?_, ?_, rfl, fun t p => rfl⟩
  · simp [connPumpRecord, h, connSend]
  · simp [connPumpRecord, h, connSend]

/-- C9 witness: a concrete inbound record with `mc = 7` acknowledged on a
channel whose counter is 3. -/
theorem pump_ack_raw_send_witness :
    (connPumpRecord (fun b => b) (fun _ => ([] : List Nat))
      (⟨[], [], 0, 3⟩ : SecureBridgeConnection)
      (⟨300, some 7, none, some true⟩ : Wire Bool)).1 =
      (⟨[], [], 0, 3⟩ : SecureBridgeConnection) :=
  (pump_ack_raw_send (fun b => b) (fun _ => ([] : List Nat))
    (⟨[], [], 0, 3⟩ : SecureBridgeConnection)
    (⟨300, some 7, none, some true⟩ : Wire Bool) 7 rfl).1

/-- Right rotation on 32-bit words (values kept below `2 ^ 32`). -/
def rotr32 (n x : Nat) : Nat := ((x >>> n) ||| (x <<< (32 - n))) % 2 ^ 32

def shaSmall0 (x : Nat) : Nat := rotr32 7 x ^^^ rotr32 18 x ^^^ (x >>> 3)

def shaSmall1 (x : Nat) : Nat := rotr32 17 x ^^^ rotr32 19 x ^^^ (x >>> 10)

def shaBig0 (x : Nat) : Nat := rotr32 2 x ^^^ rotr32 13 x ^^^ rotr32 22 x

def shaBig1 (x : Nat) : Nat := rotr32 6 x ^^^ rotr32 11 x ^^^ rotr32 25 x

def shaCh (x y z : Nat) : Nat := (x &&& y) ^^^ ((x ^^^ 0xffffffff) &&& z)

def shaMaj (x y z : Nat) : Nat := (x &&& y) ^^^ (x &&& z) ^^^ (y &&& z)

/-- The SHA-256 round constants (FIPS 180-2, written in decimal). -/
def shaK : List Nat :=
  [1116352408, 1899447441, 3049323471, 3921009573, 961987163,
   1508970993, 2453635748, 2870763221, 3624381080, 310598401,
   607225278, 1426881987, 1925078388, 2162078206, 2614888103,
   3248222580, 3835390401, 4022224774, 264347078, 604807628,
   770255983, 1249150122, 1555081692, 1996064986, 2554220882,
   2821834349, 2952996808, 3210313671, 3336571891, 3584528711,
   113926993, 338241895, 666307205, 773529912, 1294757372,
   1396182291, 1695183700, 1986661051, 2177026350, 2456956037,
   2730485921, 2820302411, 3259730800, 3345764771, 3516065817,
   3600352804, 4094571909, 275423344, 430227734, 506948616,
   659060556, 883997877, 958139571, 1322822218, 1537002063,
   1747873779, 1955562222, 2024104815, 2227730452, 2361852424,
   2428436474, 2756734187, 3204031479, 3329325298]

/-- The SHA-256 initial hash value (FIPS 180-2, written in decimal). -/
def shaH0 : List Nat :=
  [1779033703, 3144134277, 1013904242, 2773480762,
   1359893119, 2600822924, 528734635, 1541459225]

/-- Pack bytes into 32-bit big-endian words. -/
def bytesToWordsBE (fuel : Nat) (l : List Nat) : List Nat :=
  match fuel with
  | 0 => []
  | fuel + 1 =>
    match l with
    | b0 :: b1 :: b2 :: b3 :: rest =>
      (b0 * 2 ^ 24 + b1 * 2 ^ 16 + b2 * 2 ^ 8 + b3) :: bytesToWordsBE fuel rest
    | _ => []

/-- Extend the 16 message-schedule words by one. -/
def shaScheduleStep (ws : List Nat) : List Nat :=
  ws ++ [(shaSmall1 (ws.getD (ws.length - 2) 0) + ws.getD (ws.length - 7) 0 +
          shaSmall0 (ws.getD (ws.length - 15) 0) + ws.getD (ws.length - 16) 0) % 2 ^ 32]

/-- The full 64-word message schedule. -/
def shaSchedule (ws : List Nat) : List Nat := shaScheduleStep^[48] ws

/-- One SHA-256 compression round on the eight working variables. -/
def shaRound (st : List Nat) (kw : Nat × Nat) : List Nat :=
  match st with
  | [a, b, c, d, e, f, g, h] =>
    let t1 := (h + shaBig1 e + shaCh e f g + kw.1 + kw.2) % 2 ^ 32
    let t2 := (shaBig0 a + shaMaj a b c) % 2 ^ 32
    [(t1 + t2) % 2 ^ 32, a, b, c, (d + t1) % 2 ^ 32, e, f, g]
  | other => other

/-- Compress one 64-byte block into the running hash. -/
def shaCompress (h : List Nat) (block : List Nat) : List Nat :=
  let ws := shaSchedule (bytesToWordsBE 16 block)
  let st := (shaK.zip ws).foldl shaRound h
  (h.zip st).map (fun p => (p.1 + p.2) % 2 ^ 32)

/-- Split a list into chunks of `n` (fuel-bounded structural recursion). -/
def chunksFuel (fuel n : Nat) (l : List Nat) : List (List Nat) :=
  match fuel with
  | 0 => []
  | fuel + 1 =>
    if l = [] then [] else l.take n :: chunksFuel fuel n (l.drop n)

/-- SHA-256 of a byte string, as the 32 digest bytes. -/
def sha256 (msg : List Nat) : List Nat :=
  let bitLen := 8 * msg.length
  let zeros := (56 + 64 - (msg.length + 1) % 64) % 64
  let lenBytes := [bitLen >>> 56 % 256, bitLen >>> 48 % 256, bitLen >>> 40 % 256,
    bitLen >>> 32 % 256, bitLen >>> 24 % 256, bitLen >>> 16 % 256,
    bitLen >>> 8 % 256, bitLen % 256]
  let padded := msg ++ [0x80] ++ List.replicate zeros 0 ++ lenBytes
  let blocks := chunksFuel padded.length 64 padded
  ((blocks.foldl shaCompress shaH0).map
    (fun w => [w >>> 24 % 256, w >>> 16 % 256, w >>> 8 % 256, w % 256])).flatten

/-- Lowercase hexadecimal digit, as an ASCII code. -/
def hexChar (n : Nat) : Nat := if n < 10 then 48 + n else 87 + n

/-- Hex digest of a byte string (`hexdigest()` output as ASCII bytes; since
we model Python strings of hex digits by their ASCII bytes, `.encode()` is
the identity on this representation). -/
def hexBytes (bs : List Nat) : List Nat :=
  (bs.map (fun b => [hexChar (b / 16), hexChar (b % 16)])).flatten

def sha256hex (msg : List Nat) : List Nat := hexBytes (sha256 msg)

/-- The incremental-hashing object of `SHA256.new()`: `update` appends to
the buffer, `hexdigest` hashes the accumulated buffer. -/
structure SHA256Hasher where
  buf : List Nat
deriving DecidableEq

def shaNew : SHA256Hasher := ⟨[]⟩

def SHA256Hasher.update (h : SHA256Hasher) (data : List Nat) : SHA256Hasher :=
  ⟨h.buf ++ data⟩

def SHA256Hasher.hexdigest (h : SHA256Hasher) : List Nat := sha256hex h.buf

/-- `hash_password` from connection.py: hash deviceId then authKey, take
the hex digest, encode it, then hash salt followed by that digest. -/
def hashPassword (deviceId authKey salt : List Nat) : List Nat :=
  let hasher := (shaNew.update deviceId).update authKey
  let inner := hasher.hexdigest
  let hasher2 := (shaNew.update salt).update inner
  hasher2.hexdigest

/-- Sanity: the model reproduces the FIPS 180-2 test vector for "abc". -/
theorem sha256hex_abc :
    sha256hex [97, 98, 99] =
      [98, 97, 55, 56, 49, 54, 98, 102, 56, 102, 48, 49, 99, 102, 101, 97,
       52, 49, 52, 49, 52, 48, 100, 101, 53, 100, 97, 101, 50, 50, 50, 51,
       98, 48, 48, 51, 54, 49, 97, 51, 57, 54, 49, 55, 55, 97, 57, 99, 98,
       52, 49, 48, 102, 102, 54, 49, 102, 50, 48, 48, 49, 53, 97, 100] := by
  decide

/-- C8: for all byte-string inputs, `hash_password(device_id, auth_key,
salt)` equals the hex digest of SHA256 of salt concatenated with the ASCII
bytes of the hex digest of SHA256 of device_id concatenated with auth_key
— exactly this two-round nesting.  Determinism is immediate since the
embedding is a pure function of its three inputs. -/
theorem hash_password_two_round_nesting (deviceId authKey salt : List Nat) :
    hashPassword deviceId authKey salt =
      sha256hex (salt ++ sha256hex (deviceId ++ authKey)) := by
  simp [hashPassword, SHA256Hasher.update, SHA256Hasher.hexdigest, shaNew]

/-- Python exceptions that the entity handlers can raise. -/
inductive PyErr where
  | keyError
  | valueError
  | attributeError
  | unboundLocal (name : String)
deriving DecidableEq, Repr

/-- A device state-update fragment: the dict keys the device handlers read
(`switch`, `dimmvalue`, `curstate`); an absent key is `none`. -/
structure Frag where
  switch : Option Bool := none
  dimmvalue : Option Int := none
  curstate : Option Int := none
deriving DecidableEq, Repr

/-- Python `dict.update` on the fragment's key set: a key present in the
new fragment overwrites, the rest persist. -/
def Frag.update (old new : Frag) : Frag :=
  { switch := new.switch <|> old.switch,
    dimmvalue := new.dimmvalue <|> old.dimmvalue,
    curstate := new.curstate <|> old.curstate }

/-- `LightState` from devices.py. -/
structure LightState where
  switch : Bool
  dimmvalue : Int
  raw : Frag
deriving DecidableEq, Repr

/-- A `Light` device: the `dimmable` flag and the `BehaviorSubject`'s
current value (`None` until the first broadcast). -/
structure Light where
  device_id : Int
  dimmable : Bool
  state : Option LightState := none
deriving DecidableEq, Repr

/-- `Light.interpret_dimmvalue_from_payload`: non-dimmable lights report
99; a dimmable light turning off keeps the previously published dimm value
(or 99 if none was published); turning on takes the fragment's `dimmvalue`,
defaulting to 99. -/
def Light.interpretDimmvalue (l : Light) (switch : Bool) (payload : Frag) : Int :=
  if !l.dimmable then 99
  else if !switch then
    match l.state with
    | some s => s.dimmvalue
    | none => 99
  else payload.dimmvalue.getD 99

/-- `Light.handle_state`: fragments without a `switch` key are ignored;
otherwise publish a new `LightState`. -/
def Light.handleState (l : Light) (payload : Frag) : Light :=
  match payload.switch with
  | none => l
  | some sw =>
    { l with state := some ⟨sw, l.interpretDimmvalue sw payload, payload⟩ }

/-- A shade state-update fragment (`curstate`, `shSafety`, `shPos`). -/
structure ShadeFrag where
  curstate : Option Int := none
  shSafety : Option Int := none
  shPos : Option Int := none
deriving DecidableEq, Repr

def ShadeFrag.update (old new : ShadeFrag) : ShadeFrag :=
  { curstate := new.curstate <|> old.curstate,
    shSafety := new.shSafety <|> old.shSafety,
    shPos := new.shPos <|> old.shPos }

/-- `ShadeState` from devices.py: the long-lived aggregation object. -/
structure ShadeState where
  raw : ShadeFrag := {}
  current_state : Option Int := none
  is_safety_enabled : Option Bool := none
  position : Option Int := none
deriving DecidableEq, Repr

/-- `ShadeState.update_from_partial_state_update`: merge the fragment into
`raw` and overwrite each derived field only when the fragment supplies its
key; `shSafety` is interpreted as nonzero-means-engaged. -/
def ShadeState.updateFromPartialStateUpdate (st : ShadeState)
    (payload : ShadeFrag) : ShadeState :=
  { raw := st.raw.update payload,
    current_state :=
      match payload.curstate with
      | some v => some v
      | none => st.current_state,
    is_safety_enabled :=
      match payload.shSafety with
      | some v => some (decide (v ≠ 0))
      | none => st.is_safety_enabled,
    position :=
      match payload.shPos with
      | some v => some v
      | none => st.position }

/-- `ShadeState.is_closed`: `None` when the position is unknown or strictly
between 0 and 100, otherwise whether the position equals 100. -/
def ShadeState.isClosed (st : ShadeState) : Option Bool :=
  match st.position with
  | none => none
  | some p => if 0 < p ∧ p < 100 then none else some (decide (p = 100))

/-- A `Comp` entry of the component registry: its type code and the
`BehaviorSubject` cell that `Comp.handle_state` replaces wholesale. -/
structure Comp where
  comp_id : Int
  comp_type : Int
  state : Option Frag := none
deriving DecidableEq, Repr

/-- Modelled from the spec: the `Messages` enumeration lives in
constants.py, which is not under src/; only the member names used by the
commands are needed, not their numeric codes. -/
inductive Messages where
  | SET_DEVICE_SHADING_STATE
  | SET_HEATING_STATE
  | ACTION_SWITCH_DEVICE
  | ACTION_SLIDE_DEVICE
deriving DecidableEq, Repr

/-- Modelled from the spec: `ShadeOperationState` also lives in the missing
constants.py; move commands map to these fixed operation codes. -/
inductive ShadeOperationState where
  | OPEN
  | CLOSE
  | STOP
  | GO_TO
deriving DecidableEq, Repr

/-- The shading command payload `{deviceId, state, value?}`. -/
structure ShadingPayload where
  deviceId : Int
  state : ShadeOperationState
  value : Option Int := none
deriving DecidableEq, Repr

/-- Integer-keyed registry lookup (`dict.get`). -/
def regGet {α : Type} (m : List (Int × α)) (k : Int) : Option α :=
  (m.find? (fun p => p.1 == k)).map (fun p => p.2)

/-- Replace the entry of an existing key (in-place mutation of the entity
held by the registry). -/
def regSet {α : Type} (m : List (Int × α)) (k : Int) (v : α) : List (Int × α) :=
  m.map (fun p => if p.1 == k then (p.1, v) else p)

/-- A `Shade` device: identity, its component link, the `shRuntime` key of
its creation payload, and the aggregated `__shade_state`. -/
structure Shade where
  device_id : Int
  comp_id : Int
  shRuntime : Option Int := none
  shadeState : ShadeState := {}
deriving DecidableEq, Repr

/-- `Shade.supports_go_to`: `None` when the component is missing, else
whether the component type is 86 and the descriptor has `shRuntime == 1`. -/
def Shade.supportsGoTo (comps : List (Int × Comp)) (s : Shade) : Option Bool :=
  match regGet comps s.comp_id with
  | some component =>
    some (component.comp_type == 86 && s.shRuntime == some 1)
  | none => none

/-- `Shade.handle_state`: aggregate the fragment and broadcast. -/
def Shade.handleState (s : Shade) (payload : ShadeFrag) : Shade :=
  { s with shadeState := s.shadeState.updateFromPartialStateUpdate payload }

/-- `Shade.send_state`: refuse (no outbound message) while safety is
engaged, otherwise send `SET_DEVICE_SHADING_STATE` with
`{deviceId, state, **kw}`. -/
def Shade.sendState (s : Shade) (state : ShadeOperationState)
    (value : Option Int) : Option (Messages × ShadingPayload) :=
  if s.shadeState.is_safety_enabled = some true then none
  else some (Messages.SET_DEVICE_SHADING_STATE, ⟨s.device_id, state, value⟩)

def Shade.moveDown (s : Shade) : Option (Messages × ShadingPayload) :=
  s.sendState .CLOSE none

def Shade.moveUp (s : Shade) : Option (Messages × ShadingPayload) :=
  s.sendState .OPEN none

/-- `Shade.move_stop`: checks safety itself (returning without sending)
before delegating to `send_state`. -/
def Shade.moveStop (s : Shade) : Option (Messages × ShadingPayload) :=
  if s.shadeState.is_safety_enabled = some true then none
  else s.sendState .STOP none

/-- `Shade.move_to_position`: `assert self.supports_go_to and
0 <= position <= 100`, then `send_state(GO_TO, value=position)`. -/
def Shade.moveToPosition (comps : List (Int × Comp)) (s : Shade)
    (position : Int) : Except String (Option (Messages × ShadingPayload)) :=
  if s.supportsGoTo comps = some true ∧ 0 ≤ position ∧ position ≤ 100 then
    .ok (s.sendState .GO_TO (some position))
  else .error "AssertionError"

/-- A shade that has received a fragment engaging safety. -/
def shadeSafetyOn : Shade :=
  Shade.handleState { device_id := 4, comp_id := 9, shRuntime := some 1 }
    { shSafety := some 1, shPos := some 50 }

/-- C2 counterexample: with safety engaged, `move_stop` is also a silent
no-op — it does not send the STOP operation command, contrary to the
claim that the explicit stop-request still goes out. -/
theorem shade_move_stop_blocked_counterexample :
    shadeSafetyOn.shadeState.is_safety_enabled = some true ∧
    shadeSafetyOn.moveStop = none := by
  decide

/-- C2 (amended): while safety is engaged every move command — `move_up`,
`move_down`, `move_to_position`, and also the explicit stop-request
`move_stop` — produces no outbound message; `move_stop` sends the STOP
operation command only when safety is not engaged (`move_stop` has its own
safety check on top of the one in `send_state`). -/
theorem shade_safety_blocks_all_moves (s : Shade) (comps : List (Int × Comp))
    (h : s.shadeState.is_safety_enabled = some true) :
    s.moveUp = none ∧ s.moveDown = none ∧ s.moveStop = none ∧
    (∀ p m, s.moveToPosition comps p ≠ .ok (some m)) ∧
    (∀ s' : Shade, s'.shadeState.is_safety_enabled ≠ some true →
      s'.moveStop =
        some (Messages.SET_DEVICE_SHADING_STATE, ⟨s'.device_id, .STOP, none⟩)) := by
  refine ⟨?_, ?_, ?_, ?_, ?_⟩
  · simp [Shade.moveUp, Shade.sendState, h]
  · simp [Shade.moveDown, Shade.sendState, h]
  · simp [Shade.moveStop, h]
  · intro p m
    unfold Shade.moveToPosition
    split
    · simp [Shade.sendState, h]
    · simp
  · intro s' h'
    simp [Shade.moveStop, Shade.sendState, h']

/-- C2 witness: the amended theorem applied to the concrete safety-engaged
shade, plus the STOP command going out once safety is cleared. -/
theorem shade_safety_blocks_all_moves_witness :
    shadeSafetyOn.moveUp = none ∧ shadeSafetyOn.moveDown = none ∧
    shadeSafetyOn.moveStop = none ∧
    (∀ p m, shadeSafetyOn.moveToPosition [] p ≠ .ok (some m)) ∧
    (∀ s' : Shade, s'.shadeState.is_safety_enabled ≠ some true →
      s'.moveStop =
        some (Messages.SET_DEVICE_SHADING_STATE, ⟨s'.device_id, .STOP, none⟩)) :=
  shade_safety_blocks_all_moves shadeSafetyOn [] (by decide)

/-- C6: for every aggregated shade state whose position (when known) is in
the protocol's 0–100 range, `is_closed` is `None` exactly when the
position is unknown or strictly between 0 and 100, `True` exactly at
position 100, and `False` exactly at position 0. -/
theorem is_closed_characterization (st : ShadeState)
    (h : ∀ p, st.position = some p → 0 ≤ p ∧ p ≤ 100) :
    (st.isClosed = none ↔
      st.position = none ∨ ∃ p, st.position = some p ∧ 0 < p ∧ p < 100) ∧
    (st.isClosed = some true ↔ st.position = some 100) ∧
    (st.isClosed = some false ↔ st.position = some 0) := by
  cases hp : st.position with
  | none => simp [ShadeState.isClosed, hp]
  | some p =>
    have hb := h p hp
    by_cases hmid : 0 < p ∧ p < 100
    · simp only [ShadeState.isClosed, hp, if_pos hmid]
      refine ⟨⟨fun _ => Or.inr ⟨p, rfl, hmid⟩, fun _ => trivial⟩, ?_, ?_⟩
      · exact iff_of_false (by simp) (by simp; omega)
      · exact iff_of_false (by simp) (by simp; omega)
    · simp only [ShadeState.isClosed, hp, if_neg hmid]
      refine ⟨?_, ?_, ?_⟩
      · constructor
        · intro hx; simp at hx
        · rintro (hx | ⟨q, hq, hq2⟩)
          · simp at hx
          · simp only [Option.some.injEq] at hq
            subst hq
            omega
      · simp
      · simp
        omega

/-- C6 witness: the characterization applied at the concrete aggregated
state with position 100. -/
theorem is_closed_characterization_witness :
    (({ position := some 100 } : ShadeState).isClosed = none ↔
      ({ position := some 100 } : ShadeState).position = none ∨
        ∃ p, ({ position := some 100 } : ShadeState).position = some p ∧
          0 < p ∧ p < 100) ∧
    (({ position := some 100 } : ShadeState).isClosed = some true ↔
      ({ position := some 100 } : ShadeState).position = some 100) ∧
    (({ position := some 100 } : ShadeState).isClosed = some false ↔
      ({ position := some 100 } : ShadeState).position = some 0) :=
  is_closed_characterization { position := some 100 }
    (by intro p hp; simp at hp; omega)

theorem light_nondimmable_invariant (frags : List Frag) (l : Light)
    (hd : l.dimmable = false)
    (hs : ∀ s, l.state = some s → s.dimmvalue = 99) :
    ∀ s, (frags.foldl Light.handleState l).state = some s → s.dimmvalue = 99 := by
  induction frags generalizing l with
  | nil => exact hs
  | cons f rest ih =>
    simp only [List.foldl_cons]
    apply ih
    · cases hsw : f.switch <;> simp [Light.handleState, hsw, hd]
    · intro s hss
      cases hsw : f.switch with
      | none =>
        simp only [Light.handleState, hsw] at hss
        exact hs s hss
      | some sw =>
        simp only [Light.handleState, hsw, Option.some.injEq] at hss
        rw [← hss]
        simp [Light.interpretDimmvalue, hd]

/-- C5: the effective dimm value rules of `Light`.  A non-dimmable light's
published dimm value is 99 after every update sequence; a dimmable light
receiving `switch: false` retains the dimm value of its previously
published state (or 99 if none was published yet); a dimmable light
receiving `switch: true` takes the fragment's `dimmvalue` when present,
else 99. -/
theorem light_dimm_rules :
    (∀ (frags : List Frag) (did : Int) (s : LightState),
      (frags.foldl Light.handleState
        { device_id := did, dimmable := false, state := none }).state = some s →
      s.dimmvalue = 99) ∧
    (∀ (l : Light) (f : Frag) (s : LightState), l.dimmable = true →
      f.switch = some false → (l.handleState f).state = some s →
      s.dimmvalue = (match l.state with
        | some prev => prev.dimmvalue
        | none => 99)) ∧
    (∀ (l : Light) (f : Frag) (s : LightState), l.dimmable = true →
      f.switch = some true → (l.handleState f).state = some s →
      s.dimmvalue = f.dimmvalue.getD 99) := by
  refine ⟨?_, ?_, ?_⟩
  · intro frags did s h
    exact light_nondimmable_invariant frags _ rfl (by simp) s h
  · intro l f s hd hsw hss
    simp only [Light.handleState, hsw, Option.some.injEq] at hss
    rw [← hss]
    simp [Light.interpretDimmvalue, hd]
  · intro l f s hd hsw hss
    simp only [Light.handleState, hsw, Option.some.injEq] at hss
    rw [← hss]
    simp [Light.interpretDimmvalue, hd]

/-- C5 witness: the three rules applied at concrete lights and fragments —
a non-dimmable light after two updates, a dimmable light turning off (it
keeps the previously published 42), and a dimmable light turning on with
no `dimmvalue` key (it defaults to 99). -/
theorem light_dimm_rules_witness :
    ((⟨true, 99, { switch := some true }⟩ : LightState).dimmvalue = 99) ∧
    ((⟨false, 42, { switch := some false }⟩ : LightState).dimmvalue =
      (match (some (⟨true, 42, {}⟩ : LightState) : Option LightState) with
        | some prev => prev.dimmvalue
        | none => 99)) ∧
    ((⟨true, 99, { switch := some true }⟩ : LightState).dimmvalue =
      (Option.none).getD 99) :=
  ⟨light_dimm_rules.1 [{ curstate := some 1 }, { switch := some true }] 3
      ⟨true, 99, { switch := some true }⟩ rfl,
   light_dimm_rules.2.1
      { device_id := 1, dimmable := true, state := some ⟨true, 42, {}⟩ }
      { switch := some false } ⟨false, 42, { switch := some false }⟩ rfl rfl rfl,
   light_dimm_rules.2.2
      { device_id := 2, dimmable := true, state := none }
      { switch := some true } ⟨true, 99, { switch := some true }⟩ rfl rfl rfl⟩

/-- The `RctMode` heating-mode enumeration from room.py. -/
inductive RctMode where
  | Cool
  | Eco
  | Comfort
deriving DecidableEq, Repr

/-- `RctMode.value` (`Cool = 1`, `Eco = 2`, `Comfort = 3`). -/
def RctMode.val : RctMode → Int
  | .Cool => 1
  | .Eco => 2
  | .Comfort => 3

/-- `RctMode(v)`: `none` models the `ValueError` Python raises for a value
outside the enumeration. -/
def RctMode.fromInt (v : Int) : Option RctMode :=
  if v = 1 then some .Cool
  else if v = 2 then some .Eco
  else if v = 3 then some .Comfort
  else none

/-- The `RctState` HVAC-activity enumeration from room.py. -/
inductive RctState where
  | Idle
  | Auto
  | Active
deriving DecidableEq, Repr

def RctState.val : RctState → Int
  | .Idle => 0
  | .Auto => 1
  | .Active => 2

def RctState.fromInt (v : Int) : Option RctState :=
  if v = 0 then some .Idle
  else if v = 1 then some .Auto
  else if v = 2 then some .Active
  else none

/-- A key of the `modesetpoints` dict.  Python dict keys compare by value:
an `RctMode` member and the plain int `mode.value` are distinct keys (the
enum is not an `IntEnum`), so both kinds occur in the same dict. -/
inductive PyKey where
  | enumKey (m : RctMode)
  | intKey (v : Int)
deriving DecidableEq, Repr

/-- Python `dict.get` on the setpoint table. -/
def spGet (m : List (PyKey × ℚ)) (k : PyKey) : Option ℚ :=
  (m.find? (fun p => p.1 == k)).map (fun p => p.2)

/-- Python `dict[k] = v` on the setpoint table. -/
def spSet (m : List (PyKey × ℚ)) (k : PyKey) (v : ℚ) : List (PyKey × ℚ) :=
  m.filter (fun p => !(p.1 == k)) ++ [(k, v)]

/-- A room state-update fragment: the dict keys `Room.handle_state`
reads.  Temperatures and setpoints are modelled as rationals (the Python
floats only flow through comparisons and `min`/`max`, never arithmetic). -/
structure RoomFrag where
  setpoint : Option ℚ := none
  temp : Option ℚ := none
  humidity : Option ℚ := none
  power : Option ℚ := none
  currentMode : Option Int := none
  mode : Option Int := none
  modes : Option (List (Int × ℚ)) := none
  state : Option Int := none
deriving DecidableEq, Repr

/-- Python `dict.update` on the room fragment's key set. -/
def RoomFrag.update (old new : RoomFrag) : RoomFrag :=
  { setpoint := new.setpoint <|> old.setpoint,
    temp := new.temp <|> old.temp,
    humidity := new.humidity <|> old.humidity,
    power := new.power <|> old.power,
    currentMode := new.currentMode <|> old.currentMode,
    mode := new.mode <|> old.mode,
    modes := new.modes <|> old.modes,
    state := new.state <|> old.state }

/-- `RoomState` from room.py. -/
structure RoomState where
  setpoint : Option ℚ
  temperature : Option ℚ
  humidity : Option ℚ
  power : ℚ
  mode : RctMode
  rctstate : RctState
  raw : RoomFrag
deriving DecidableEq, Repr

/-- A `Room`: identity, the `BehaviorSubject` cell (`None` until the first
broadcast) and the `modesetpoints` side table. -/
structure Room where
  room_id : Int
  state : Option RoomState := none
  modesetpoints : List (PyKey × ℚ) := []
deriving DecidableEq, Repr

/-- `Room.handle_state`: merge the fragment into the previous raw state,
read the optional fields, assign the local `mode` from `currentMode`
and/or `mode` when present and the local `currentstate` from `state` when
present, store `modes` entries under `RctMode` enum keys — and then
dereference both locals (first in the debug-log line, then to build the
`RoomState`), which raises `UnboundLocalError` when the corresponding keys
have never been seen. -/
def Room.handleState (r : Room) (payload0 : RoomFrag) : Except PyErr Room := do
  let payload :=
    match r.state with
    | some old => RoomFrag.update old.raw payload0
    | none => payload0
  let setpoint := payload.setpoint
  let temperature := payload.temp
  let humidity := payload.humidity
  let power := payload.power.getD 0
  let mode1 : Option RctMode ←
    match payload.currentMode with
    | some v =>
      match RctMode.fromInt v with
      | some m => pure (some m)
      | none => throw PyErr.valueError
    | none => pure none
  let mode2 : Option RctMode ←
    match payload.mode with
    | some v =>
      match RctMode.fromInt v with
      | some m => pure (some m)
      | none => throw PyErr.valueError
    | none => pure mode1
  let msp : List (PyKey × ℚ) ←
    match payload.modes with
    | some entries =>
      entries.foldlM (fun acc e =>
        match RctMode.fromInt e.1 with
        | some m => pure (spSet acc (PyKey.enumKey m) e.2)
        | none => throw PyErr.valueError) r.modesetpoints
    | none => pure r.modesetpoints
  let cst : Option RctState ←
    match payload.state with
    | some v =>
      match RctState.fromInt v with
      | some st => pure (some st)
      | none => throw PyErr.valueError
    | none => pure none
  let m : RctMode ←
    match mode2 with
    | some m => pure m
    | none => throw (PyErr.unboundLocal "mode")
  let c : RctState ←
    match cst with
    | some c => pure c
    | none => throw (PyErr.unboundLocal "currentstate")
  pure { r with
    state := some ⟨setpoint, temperature, humidity, power, m, c, payload⟩,
    modesetpoints := msp }

/-- `RctModeRange` from room.py. -/
structure RctModeRange where
  Min : ℚ
  Max : ℚ
deriving DecidableEq, Repr

/-- `Bridge.rctsetpointallowedvalues` from bridge.py: Cool 5–20, Eco
10–30, Comfort 18–40 degrees C. -/
def rctsetpointallowedvalues : RctMode → RctModeRange
  | .Cool => ⟨5, 20⟩
  | .Eco => ⟨10, 30⟩
  | .Comfort => ⟨18, 40⟩

/-- The heating command payload `{roomId, mode, state, setpoint,
confirmed}`. -/
structure HeatingPayload where
  roomId : Int
  mode : Int
  state : Int
  setpoint : Option ℚ
  confirmed : Bool
deriving DecidableEq, Repr

/-- `Room.set_target_temperature`: clamp into the current mode's range,
store the clamped value into `modesetpoints` under the key
`self.state.value.mode.value` (the plain int), and send the heating
command.  Reading `self.state.value.mode` with no published state raises
`AttributeError`. -/
def Room.setTargetTemperature (r : Room) (setpoint : ℚ) :
    Except PyErr (Room × Messages × HeatingPayload) := do
  let st : RoomState ←
    match r.state with
    | some st => pure st
    | none => throw PyErr.attributeError
  let range := rctsetpointallowedvalues st.mode
  let sp1 := min setpoint range.Max
  let sp2 := max sp1 range.Min
  let msp := spSet r.modesetpoints (PyKey.intKey st.mode.val) sp2
  pure ({ r with modesetpoints := msp },
    Messages.SET_HEATING_STATE,
    { roomId := r.room_id, mode := st.mode.val, state := st.rctstate.val,
      setpoint := some sp2, confirmed := false })

/-- `Room.set_mode`: look up the stored setpoint under the `RctMode` enum
key and send the heating command carrying it (possibly `None`). -/
def Room.setMode (r : Room) (mode : RctMode) :
    Except PyErr (Messages × HeatingPayload) := do
  let newsetpoint := spGet r.modesetpoints (PyKey.enumKey mode)
  let st : RoomState ←
    match r.state with
    | some st => pure st
    | none => throw PyErr.attributeError
  pure (Messages.SET_HEATING_STATE,
    { roomId := r.room_id, mode := mode.val, state := st.rctstate.val,
      setpoint := newsetpoint, confirmed := false })

instance {ε α : Type} [DecidableEq ε] [DecidableEq α] :
    DecidableEq (Except ε α) := fun a b =>
  match a, b with
  | .ok x, .ok y =>
    if h : x = y then .isTrue (by rw [h])
    else .isFalse (by intro hh; cases hh; exact h rfl)
  | .error x, .error y =>
    if h : x = y then .isTrue (by rw [h])
    else .isFalse (by intro hh; cases hh; exact h rfl)
  | .ok _, .error _ => .isFalse (by intro hh; cases hh)
  | .error _, .ok _ => .isFalse (by intro hh; cases hh)

/-- A room whose published state is in Comfort mode, Idle HVAC activity,
with no stored mode setpoints. -/
def roomComfort : Room :=
  { room_id := 7,
    state := some ⟨none, none, none, 0, .Comfort, .Idle, {}⟩,
    modesetpoints := [] }

/-- C3: evaluation at the failing input.  `set_target_temperature(25)` in
Comfort mode stores the clamped setpoint under the plain-int key
`mode.value = 3`, but the immediately following `set_mode(Comfort)` looks
up the `RctMode.Comfort` enum key, misses the stored entry, and sends a
heating command whose setpoint is `None` instead of 25. -/
theorem room_setpoint_key_mismatch :
    Room.setTargetTemperature roomComfort 25 =
      .ok ({ roomComfort with modesetpoints := [(PyKey.intKey 3, 25)] },
        Messages.SET_HEATING_STATE,
        { roomId := 7, mode := 3, state := 0, setpoint := some 25,
          confirmed := false }) ∧
    Room.setMode { roomComfort with modesetpoints := [(PyKey.intKey 3, 25)] }
        RctMode.Comfort =
      .ok (Messages.SET_HEATING_STATE,
        { roomId := 7, mode := 3, state := 0, setpoint := none,
          confirmed := false }) := by
  constructor
  · decide
  · decide

/-- A room that has not yet received any state fragment. -/
def freshRoom : Room := { room_id := 5 }

/-- C4: evaluation at the failing input.  Handling a first fragment that
carries neither `currentMode` nor `mode` raises `UnboundLocalError` on the
local `mode` (dereferenced by the debug-log line and the `RoomState`
constructor) instead of succeeding with the mode unset; a first fragment
that does carry a mode and an HVAC state succeeds. -/
theorem room_first_fragment_missing_mode :
    Room.handleState freshRoom { setpoint := some 21 } =
      .error (PyErr.unboundLocal "mode") ∧
    Room.handleState freshRoom
        { setpoint := some 21, currentMode := some 3, state := some 0 } =
      .ok ({
        room_id := 5,
        state := some ⟨some 21, none, none, 0, RctMode.Comfort, RctState.Idle,
          { setpoint := some 21, currentMode := some 3, state := some 0 }⟩,
        modesetpoints := [] } : Room) := by
  constructor
  · decide
  · decide

/-- A `Rocker` device: identity, component link, descriptor payload and
`is_on`.  (The multi-sensor companion subscription affects only what is
broadcast, not what `handle_state` raises, and is not modelled.) -/
structure Rocker where
  device_id : Int
  comp_id : Int
  payload : Frag := {}
  is_on : Option Bool := none
deriving DecidableEq, Repr

/-- `Rocker.handle_state`: merge the fragment into `self.payload`, then
read `payload["curstate"]` with a plain subscript — a fragment lacking the
key raises `KeyError` (unlike `Light.handle_state`, which returns early). -/
def Rocker.handleState (r : Rocker) (payload : Frag) : Except PyErr Rocker := do
  let merged := r.payload.update payload
  let cur ←
    match payload.curstate with
    | some v => pure v
    | none => throw PyErr.keyError
  pure { r with payload := merged, is_on := some (decide (cur ≠ 0)) }

/-- A registry entry of the device dispatch (the variants the dispatch
scenario needs). -/
inductive Device where
  | light (l : Light)
  | rocker (r : Rocker)
deriving DecidableEq, Repr

/-- Polymorphic `device.handle_state(item)`. -/
def Device.handleState : Device → Frag → Except PyErr Device
  | .light l, f => .ok (.light (l.handleState f))
  | .rocker r, f => (r.handleState f).map .rocker

/-- One element of a `SET_STATE_INFO` `item` list, routed by whichever of
`deviceId`/`roomId`/`compId` keys it carries (an item with none of these
is logged and ignored). -/
inductive StateInfoItem where
  | deviceItem (deviceId : Int) (frag : Frag)
  | roomItem (roomId : Int) (frag : RoomFrag)
  | compItem (compId : Int) (frag : Frag)
  | otherItem
deriving DecidableEq, Repr

/-- The three registries owned by the `Bridge`. -/
structure BridgeModel where
  devices : List (Int × Device) := []
  rooms : List (Int × Room) := []
  comps : List (Int × Comp) := []
deriving DecidableEq, Repr

/-- Route one item as `_handle_SET_STATE_INFO` does: look the id up in the
matching registry (unknown ids are logged and ignored) and call the
entity's `handle_state`. -/
def handleStateInfoItem (b : BridgeModel) :
    StateInfoItem → Except PyErr BridgeModel
  | .deviceItem deviceId f =>
    match regGet b.devices deviceId with
    | some d => (d.handleState f).map
        (fun d' => { b with devices := regSet b.devices deviceId d' })
    | none => .ok b
  | .roomItem roomId f =>
    match regGet b.rooms roomId with
    | some r => (r.handleState f).map
        (fun r' => { b with rooms := regSet b.rooms roomId r' })
    | none => .ok b
  | .compItem compId f =>
    match regGet b.comps compId with
    | some comp =>
      .ok { b with comps := regSet b.comps compId { comp with state := some f } }
    | none => .ok b
  | .otherItem => .ok b

/-- `_handle_SET_STATE_INFO`: process the items in order with no per-item
exception handling — the first raising item ends the loop, keeping the
mutations made so far and propagating the exception. -/
def handleSetStateInfo (b : BridgeModel) :
    List StateInfoItem → BridgeModel × Option PyErr
  | [] => (b, none)
  | item :: rest =>
    match handleStateInfoItem b item with
    | .ok b' => handleSetStateInfo b' rest
    | .error e => (b, some e)

/-- `Bridge._onMessage` around the `SET_STATE_INFO` handler: the handler
call is wrapped in `except (KeyError, ValueError)`, which logs and drops
the message; any other exception propagates. -/
def onMessageSetStateInfo (b : BridgeModel) (items : List StateInfoItem) :
    Except PyErr BridgeModel :=
  match handleSetStateInfo b items with
  | (b', none) => .ok b'
  | (b', some e) =>
    if e = PyErr.keyError ∨ e = PyErr.valueError then .ok b'
    else .error e

/-- The registries of the C10 dispatch scenario: a rocker at id 1 and a
light at id 2 that has not yet published a state. -/
def bridgeScenario : BridgeModel :=
  { devices := [(1, .rocker { device_id := 1, comp_id := 10 }),
                (2, .light { device_id := 2, dimmable := true })] }

/-- The C10 item batch: a rocker fragment lacking `curstate`, followed by
a well-formed light fragment. -/
def itemsScenario : List StateInfoItem :=
  [.deviceItem 1 {}, .deviceItem 2 { switch := some true, dimmvalue := some 50 }]

/-- C10: `Rocker.handle_state` raises `KeyError` on a fragment lacking
`curstate`, while `Light.handle_state` silently ignores a fragment
lacking `switch`; in the `SET_STATE_INFO` dispatch path there is no
per-item exception handling, so the bad rocker item aborts the batch
before the following light item is processed, and the error is absorbed
only at whole-message level by `_onMessage`'s
`except (KeyError, ValueError)`. -/
theorem rocker_missing_curstate_keyerror :
    (∀ (r : Rocker) (f : Frag), f.curstate = none →
      r.handleState f = .error PyErr.keyError) ∧
    (∀ (l : Light) (f : Frag), f.switch = none → l.handleState f = l) ∧
    handleSetStateInfo bridgeScenario itemsScenario =
      (bridgeScenario, some PyErr.keyError) ∧
    onMessageSetStateInfo bridgeScenario itemsScenario = .ok bridgeScenario := by
  refine ⟨?_, ?_, ?_, ?_⟩
  · intro r f hf
    simp only [Rocker.handleState, hf]
    rfl
  · intro l f hf
    simp [Light.handleState, hf]
  · decide
  · decide

/-- C10 witness: the two per-device rules applied at concrete devices and
fragments. -/
theorem rocker_missing_curstate_keyerror_witness :
    ({ device_id := 1, comp_id := 10 } : Rocker).handleState {} =
      .error PyErr.keyError ∧
    ({ device_id := 2, dimmable := true } : Light).handleState
        { curstate := some 1 } =
      { device_id := 2, dimmable := true } :=
  ⟨rocker_missing_curstate_keyerror.1 { device_id := 1, comp_id := 10 } {} rfl,
   rocker_missing_curstate_keyerror.2.1 { device_id := 2, dimmable := true }
     { curstate := some 1 } rfl⟩
